import Mathlib

/-!
Verification of the YouTube plugin (`src/youtube/src/lib.rs`): a shallow
embedding of the scraped-response extraction pipeline (`get_json`), the
result parser (`YouTube::parse`, `QueryResultData::parse`, the `read`
helper) and the media resolver (`stream_fn`), together with theorems
settling the specification claims.

Conventions of the embedding:
* `serde_json::Value` becomes the inductive `Json` (numbers simplified to
  `Int`; none of the verified paths inspects a numeric payload).
* Rust functions that can return `Err` *or* panic (via `.unwrap()` /
  out-of-bounds indexing) become functions into `PResult`, which has an
  explicit `panic` outcome.
* Byte offsets coincide with character indices because every string the
  claims touch is ASCII; text is handled as `List Char`.
* `u64` arithmetic is `Nat` with explicit `% 2 ^ 64` at each operation
  (release-mode wrapping semantics).
-/

/-- Error values surfaced by the plugin.  `missingField name` embeds the
source's `ParseError::JsonUnparsable(format!("Missing field `{name}`"))`;
`invalidUrl` embeds a propagated `url::ParseError` from `reqwest::Url::parse`;
`parsableTextNotFound` and `invalidResponseText` embed the corresponding
`ParseError` variants; `jsonUnparsable msg` embeds serde's parse failure;
`streamError msg` embeds `PluginError::StreamError(msg)`;
`ioError` embeds a propagated `std::io::Error` from launching a process. -/
inductive PError where
  | missingField (name : String)
  | invalidUrl
  | parsableTextNotFound
  | invalidResponseText
  | jsonUnparsable (msg : String)
  | streamError (msg : String)
  | ioError
deriving DecidableEq

/-- Outcome of Rust code that may return `Ok`, return `Err`, or panic. -/
inductive PResult (α : Type) where
  | ok (a : α)
  | err (e : PError)
  | panic
deriving DecidableEq

/-- Sequencing of fallible steps: models `?`-propagation; a panic anywhere
aborts everything. -/
def PResult.bind {α β : Type} : PResult α → (α → PResult β) → PResult β
  | .ok a, f => f a
  | .err e, _ => .err e
  | .panic, _ => .panic

/-- True exactly on the `ok` outcome. -/
def PResult.isOk {α : Type} : PResult α → Bool
  | .ok _ => true
  | _ => false

/-- True exactly on the `err` outcome. -/
def PResult.isErr {α : Type} : PResult α → Bool
  | .err _ => true
  | _ => false

/-- The `ok` payload, if any. -/
def PResult.toOption {α : Type} : PResult α → Option α
  | .ok a => some a
  | _ => none

/-- Shallow embedding of `serde_json::Value`. -/
inductive Json where
  | null
  | bool (b : Bool)
  | num (n : Int)
  | str (s : String)
  | arr (items : List Json)
  | obj (fields : List (String × Json))

/-- First value bound to `key` in an association list. -/
def lookupField : List (String × Json) → String → Option Json
  | [], _ => none
  | (k, v) :: rest, key => if k = key then some v else lookupField rest key

/-- Embeds `Value::get(key)`: `None` unless the value is an object holding
the key. -/
def Json.get (j : Json) (key : String) : Option Json :=
  match j with
  | .obj fields => lookupField fields key
  | _ => none

/-- Embeds `Value::as_array`. -/
def Json.asArray : Json → Option (List Json)
  | .arr items => some items
  | _ => none

/-- Embeds `Value::as_str`. -/
def Json.asStr : Json → Option String
  | .str s => some s
  | _ => none

/-- Embeds `YTItemParser::read for Value`: field lookup that fails with the
missing-field error. -/
def Json.read (j : Json) (name : String) : PResult Json :=
  match j.get name with
  | some v => .ok v
  | none => .err (.missingField name)

/-- Embeds `.unwrap()` on an `Option`: panics on `None`. -/
def unwrapO {α : Type} : Option α → PResult α
  | some a => .ok a
  | none => .panic

/-- Embeds indexing `[0]` into a `Vec`: panics when the vector is empty. -/
def index0 : List Json → PResult Json
  | [] => .panic
  | x :: _ => .ok x

/-- Embeds `?`-propagation of a `reqwest::Url::parse` result: a failed URL
parse becomes the invalid-URL error. -/
def liftUrl : Option String → PResult String
  | some u => .ok u
  | none => .err .invalidUrl

/-- Modelled from the spec: `reqwest::Url::parse` (external library, absent
from the source tree); the spec only requires recognising "absolute
well-formed URLs", so the model accepts exactly the strings carrying an
explicit http(s) scheme and returns them unchanged. -/
def urlParse (s : String) : Option String :=
  if ("https://").data.isPrefixOf s.data || ("http://").data.isPrefixOf s.data then
    some s
  else none

/-- The fixed watch-page base URL (`SOURCE_URL` in the source). -/
def SOURCE_URL : String := "https://youtube.com/watch"

/-- One shifted power of two: the modulus of `u64` arithmetic. -/
def U64 : Nat := 2 ^ 64

/-- Embeds `u64::from_str_radix(s, 10)`: optional leading `+`, at least one
decimal digit, value below `2 ^ 64`; anything else is `None` (Rust's `Err`). -/
def fromStrRadix10 (cs : List Char) : Option Nat :=
  let ds := if cs.head? = some '+' then cs.tail else cs
  if ds.isEmpty then none
  else if ds.all Char.isDigit then
    let v := ds.foldl (fun a c => a * 10 + (c.toNat - 48)) 0
    if v < U64 then some v else none
  else none

/-- Embeds `str::split(":")` on character lists. -/
def splitCols : List Char → List (List Char)
  | [] => [[]]
  | c :: rest =>
    if c = ':' then [] :: splitCols rest
    else
      match splitCols rest with
      | t :: ts => (c :: t) :: ts
      | [] => [[c]]

/-- Embeds collecting `iter.map(|t| from_str_radix(t, 10).unwrap())`: the
whole collection is `none` as soon as one token fails (the panic case). -/
def mapOpt {α β : Type} (f : α → Option β) : List α → Option (List β)
  | [] => some []
  | x :: xs =>
    match f x with
    | none => none
    | some y => (mapOpt f xs).map (fun ys => y :: ys)

/-- Boolean "every payload satisfies the predicate" on an `Option`. -/
def optAll {α : Type} (p : α → Bool) : Option α → Bool
  | none => true
  | some a => p a

/-- Embeds the duration accumulation loop of `QueryResultData::parse`:
`i` starts at the token count and is decremented before each use; every
multiplication, power and addition wraps at `2 ^ 64`. -/
def durLoop : List Nat → Nat → Nat → Nat
  | [], _, total => total
  | t :: rest, i, total =>
    durLoop rest (i - 1) ((total + (t * (60 ^ (i - 1) % U64)) % U64) % U64)

/-- Embeds the duration-string handling inside `QueryResultData::parse`:
split on `:`, convert every token with `from_str_radix(_, 10).unwrap()`
(panicking on a malformed token), then run the accumulation loop. -/
def parseDuration (s : String) : PResult Nat :=
  match mapOpt fromStrRadix10 (splitCols s.data) with
  | none => .panic
  | some vals => .ok (durLoop vals vals.length 0)

/-- The specified duration value: the component at position `i` counting
from the right contributes `value * 60 ^ i` seconds. -/
def specSecs : List Nat → Nat
  | [] => 0
  | t :: rest => t * 60 ^ rest.length + specSecs rest

/-- One parsed track record, field order following
`QueryResultData::new(track_id, track_name, track_url, track_thumbnail,
artist_name, artist_thumbnail, duration)`. -/
structure QueryResultData where
  track_id : String
  track_name : String
  track_url : String
  track_thumbnail : String
  artist_name : String
  artist_thumbnail : String
  duration : Nat
deriving DecidableEq

/-- Embeds `QueryResultData::parse` step by step, in source order: the
artist-thumbnail chain, the artist name, the duration, the id and the
constructed watch URL, the title, and the track thumbnail. -/
def QueryResultData.parse (source : Json) : PResult QueryResultData :=
  PResult.bind (source.read "channelThumbnailSupportedRenderers") fun a1 =>
  PResult.bind (a1.read "channelThumbnailWithLinkRenderer") fun a2 =>
  PResult.bind (a2.read "thumbnail") fun a3 =>
  PResult.bind (a3.read "thumbnails") fun a4 =>
  PResult.bind (unwrapO a4.asArray) fun arr1 =>
  PResult.bind (index0 arr1) fun e1 =>
  PResult.bind (e1.read "url") fun u1 =>
  PResult.bind (unwrapO u1.asStr) fun s1 =>
  PResult.bind (liftUrl (urlParse s1)) fun artistThumb =>
  PResult.bind (source.read "longBylineText") fun b1 =>
  PResult.bind (b1.read "runs") fun b2 =>
  PResult.bind (unwrapO b2.asArray) fun arr2 =>
  PResult.bind (index0 arr2) fun e2 =>
  PResult.bind (e2.read "text") fun t2 =>
  PResult.bind (unwrapO t2.asStr) fun artistName =>
  PResult.bind (source.read "lengthText") fun c1 =>
  PResult.bind (c1.read "simpleText") fun c2 =>
  PResult.bind (unwrapO c2.asStr) fun durStr =>
  PResult.bind (parseDuration durStr) fun dur =>
  PResult.bind (source.read "videoId") fun idv =>
  PResult.bind (unwrapO idv.asStr) fun trackId =>
  PResult.bind (unwrapO (urlParse (SOURCE_URL ++ "?v=" ++ trackId))) fun trackUrl =>
  PResult.bind (source.read "title") fun d1 =>
  PResult.bind (d1.read "runs") fun d2 =>
  PResult.bind (unwrapO d2.asArray) fun arr3 =>
  PResult.bind (index0 arr3) fun e3 =>
  PResult.bind (e3.read "text") fun t3 =>
  PResult.bind (unwrapO t3.asStr) fun trackName =>
  PResult.bind (source.read "thumbnail") fun f1 =>
  PResult.bind (f1.read "thumbnails") fun f2 =>
  PResult.bind (unwrapO f2.asArray) fun arr4 =>
  PResult.bind (index0 arr4) fun e4 =>
  PResult.bind (e4.read "url") fun u4 =>
  PResult.bind (unwrapO u4.asStr) fun s4 =>
  PResult.bind (liftUrl (urlParse s4)) fun trackThumb =>
  PResult.ok ⟨trackId, trackName, trackUrl, trackThumb, artistName, artistThumb, dur⟩

/-- Embeds the item loop of `YouTube::parse`: elements without a
`videoRenderer` key are skipped; for the others `QueryResultData::parse`
runs and its error (`?`) or panic aborts the whole call. -/
def parseItems : List Json → PResult (List QueryResultData)
  | [] => .ok []
  | t :: rest =>
    match t.get "videoRenderer" with
    | none => parseItems rest
    | some raw =>
      match QueryResultData.parse raw with
      | .ok item =>
        match parseItems rest with
        | .ok items => .ok (item :: items)
        | .err e => .err e
        | .panic => .panic
      | .err e => .err e
      | .panic => .panic

/-- Embeds the body of `YouTube::parse` after extraction:
`json.get("contents").unwrap().as_array().unwrap()` followed by the item
loop. -/
def YouTube.parse (json : Json) : PResult (List QueryResultData) :=
  PResult.bind (unwrapO (json.get "contents")) fun c =>
  PResult.bind (unwrapO c.asArray) fun contents =>
  parseItems contents

/-- The nested leaf fields `QueryResultData::parse` reads with `read`. -/
def leafFields : List String :=
  ["channelThumbnailSupportedRenderers", "channelThumbnailWithLinkRenderer",
   "thumbnail", "thumbnails", "url", "longBylineText", "runs", "text",
   "lengthText", "simpleText", "videoId", "title"]

/-!
Regex embeddings.  The three patterns of the source are concrete enough to
be embedded as deterministic matching functions with the `regex` crate's
leftmost-match semantics; greediness is resolved by hand where it is
deterministic (a character class never overlaps the literal that follows
it) and by an explicit last-position scan for the test pattern.
-/

/-- ASCII whitespace, the instances of `\s` (and of `str::trim`) relevant
to the claims; every string they touch is ASCII. -/
def wsChar (c : Char) : Bool :=
  c = ' ' || c = '\t' || c = '\n' || c = '\r' || c = '\x0b' || c = '\x0c'

/-- The literal `https://` as characters. -/
def httpsLit : List Char := ['h', 't', 't', 'p', 's', ':', '/', '/']

/-- Whether the regex `(https://.*)\s*$` of `stream_fn` matches starting at
this suffix: the `https://` literal, then (`.` not matching newlines, `$`
anchoring at the end of the haystack) the rest of the suffix must be free
of newlines once its trailing whitespace run is removed. -/
def httpsMatchAt (cs : List Char) : Bool :=
  httpsLit.isPrefixOf cs &&
    ((cs.drop 8).reverse.dropWhile wsChar).all (fun c => c != '\n')

/-- Leftmost starting position at which `(https://.*)\s*$` matches; the
regex engine scans candidate start positions left to right.  (The empty
suffix at the very end can never match the 8-character literal, so it is
not a candidate.) -/
def findMatch : List Char → Option Nat
  | [] => none
  | c :: rest =>
    if httpsMatchAt (c :: rest) then some 0
    else (findMatch rest).map (fun i => i + 1)

/-- Embeds `str::trim` (on ASCII text). -/
def trimChars (cs : List Char) : List Char :=
  ((cs.dropWhile wsChar).reverse.dropWhile wsChar).reverse

/-- Embeds the URL-resolution half of `stream_fn`: apply the regex to the
resolution tool's captured stdout; on a match return capture 0 (the whole
match, which runs to the end of the haystack) trimmed, else the
no-download-url stream error.  (The source's second error branch, for a
missing capture 0, is unreachable: capture 0 exists whenever `captures`
returns `Some`.) -/
def resolveUrl (output : String) : PResult String :=
  match findMatch output.data with
  | some p => .ok (String.mk (trimChars (output.data.drop p)))
  | none => .err (.streamError "No download url found")

/-- Captured output of a finished external process; `stdout` is kept as a
`String` (the source's `from_utf8(..).unwrap()` panic on non-UTF-8 output
is outside the claims). -/
structure ProcOutput where
  status : Int
  stdout : String
deriving DecidableEq

/-- The ffmpeg invocation `stream_fn` assembles on success: input URL,
fixed audio codec, `file:`-prefixed output path, unconditional overwrite. -/
structure FfmpegArgs where
  input : String
  audioCodec : String
  outFile : String
  overwrite : Bool
deriving DecidableEq

/-- Embeds `stream_fn` up to the handing-over of the transcode process:
`youtube-dl -g url` is run and its outcome is the parameter (`none` models
an I/O error launching it, propagated by `?`; note the exit status inside
`ProcOutput` is never consulted); on a resolved URL the ffmpeg invocation
is assembled and spawned.  An `ok` result carries the spawned process's
arguments; an `err` result means no transcode process was spawned. -/
def stream_fn (toolOut : Option ProcOutput) (file_name : String) : PResult FfmpegArgs :=
  match toolOut with
  | none => .err .ioError
  | some out =>
    match resolveUrl out.stdout with
    | .ok url => .ok ⟨url, "libmp3lame", "file:" ++ file_name, true⟩
    | .err e => .err e
    | .panic => .panic

/-- The begin-boundary pattern of `get_json` is the pure literal
`itemSectionRenderer":({"contents")`; this is that literal (braces written
as characters). -/
def beginLit : List Char := ("itemSectionRenderer\":\x7b\"contents\"").data

/-- First index at which `pat` occurs in the haystack (leftmost literal
match). -/
def findSub (pat : List Char) : List Char → Option Nat
  | [] => if pat.isPrefixOf ([] : List Char) then some 0 else none
  | c :: rest =>
    if pat.isPrefixOf (c :: rest) then some 0
    else (findSub pat rest).map (fun i => i + 1)

/-- Capture-1 range of the begin-boundary regex of `get_json` on a text:
the literal prefix before the group is 21 characters long and the group
`({"contents")` is 11 characters long, so a literal match at `i` yields
the half-open range `(i + 21, i + 32)`. -/
def get_json_begin (text : String) : Option (Nat × Nat) :=
  (findSub beginLit text.data).map (fun i => (i + 21, i + 32))

/-- Literal head of the end-boundary pattern: `],"trackingParams":"`
(20 characters). -/
def endLit1 : List Char := ("],\"trackingParams\":\"").data

/-- Literal tail of the end-boundary pattern after the character class:
`"}},{"continuationItemRenderer"`, whose second character is the
captured `}`. -/
def endLit2 : List Char := ("\"\x7d\x7d,\x7b\"continuationItemRenderer\"").data

/-- The character class `[a-zA-Z0-9=_-]` of the end-boundary pattern. -/
def clsChar (c : Char) : Bool :=
  c.isAlphanum || c = '=' || c = '_' || c = '-'

/-- Whether the end-boundary pattern matches at this suffix, and the
capture-1 range relative to the suffix when it does.  The class run is
maximal (greedy); no backtracking arises because a class character can
never stand where the following `"` is required. -/
def endMatchAt (cs : List Char) : Option (Nat × Nat) :=
  if endLit1.isPrefixOf cs then
    let rest := cs.drop 20
    let k := (rest.takeWhile clsChar).length
    if endLit2.isPrefixOf (rest.drop k) then some (20 + k + 1, 20 + k + 2)
    else none
  else none

/-- Leftmost match of the end-boundary pattern over the whole haystack. -/
def endCaptureAux : List Char → Option (Nat × Nat)
  | [] => none
  | c :: rest =>
    match endMatchAt (c :: rest) with
    | some r => some r
    | none => (endCaptureAux rest).map (fun r => (r.1 + 1, r.2 + 1))

/-- Capture-1 range of the end-boundary regex of `get_json` on a text. -/
def get_json_end (text : String) : Option (Nat × Nat) :=
  endCaptureAux text.data

/-- Embeds `get_json`.  `jsonParse` abstracts `serde_json::from_str`
(external crate): it is only ever applied to the slice, so the theorems
can show the slice is not parsed at all on the inverted-range path.  A
failed boundary match yields `ParseError::ParsableTextNotFound`; an
inverted range (capture-1 start of the begin pattern at or beyond
capture-1 end of the end pattern) yields `ParseError::InvalidResponseText`
before any slicing. -/
def get_json (jsonParse : String → PResult Json) (text : String) : PResult Json :=
  match get_json_begin text with
  | none => .err .parsableTextNotFound
  | some br =>
    match get_json_end text with
    | none => .err .parsableTextNotFound
    | some er =>
      if br.1 ≥ er.2 then .err .invalidResponseText
      else jsonParse (String.mk ((text.data.drop br.1).take (er.2 - br.1)))

/-- The begin-boundary pattern of the source's regression test,
`itemSectionRenderer[\S|\s]*({\s*"contents)`: literal head of 19
characters. -/
def tbLit : List Char := ("itemSectionRenderer").data

/-- Whether the test pattern's capture `({\s*"contents)` matches at this
suffix, and its length when it does: an opening brace, a maximal
whitespace run, then the 9-character literal `"contents`. -/
def braceContentsAt (cs : List Char) : Option Nat :=
  match cs with
  | '\x7b' :: rest =>
    let k := (rest.takeWhile wsChar).length
    if ("\"contents").data.isPrefixOf (rest.drop k) then some (1 + k + 9)
    else none
  | _ => none

/-- Largest index whose suffix starts a capture match (the greedy
`[\S|\s]*` hands the capture the last viable position). -/
def lastBraceIdx : List Char → Option Nat
  | [] => none
  | c :: rest =>
    match lastBraceIdx rest with
    | some j => some (j + 1)
    | none => if (braceContentsAt (c :: rest)).isSome then some 0 else none

/-- Leftmost-start, greedy-capture match of the regression test's begin
pattern: the first position carrying the `itemSectionRenderer` literal and
some later capture position wins, and the capture sits at the last viable
position at least 19 characters further on. -/
def testBeginCaptureAux : List Char → Option (Nat × Nat)
  | [] => none
  | c :: rest =>
    if tbLit.isPrefixOf (c :: rest) then
      match lastBraceIdx ((c :: rest).drop 19) with
      | some j =>
        match braceContentsAt (((c :: rest).drop 19).drop j) with
        | some len => some (19 + j, 19 + j + len)
        | none => (testBeginCaptureAux rest).map (fun r => (r.1 + 1, r.2 + 1))
      | none => (testBeginCaptureAux rest).map (fun r => (r.1 + 1, r.2 + 1))
    else (testBeginCaptureAux rest).map (fun r => (r.1 + 1, r.2 + 1))

/-- Capture-1 range of the regression test's begin pattern on a text. -/
def testBeginCapture (text : String) : Option (Nat × Nat) :=
  testBeginCaptureAux text.data

/-- The fixed fixture text of the regression test,
`ntents":[{"itemSectionRenderer":{"contents":[{`. -/
def fixtureText : String :=
  "ntents\":[\x7b\"itemSectionRenderer\":\x7b\"contents\":[\x7b"

/-!
Concrete sample payloads used by witnesses and counterexamples.
-/

/-- Singleton JSON object. -/
def jObj1 (k : String) (v : Json) : Json := .obj [(k, v)]

/-- A `{"thumbnails": [{"url": u}]}` object. -/
def thumbsObj (u : String) : Json := .obj [("thumbnails", .arr [.obj [("url", .str u)]])]

/-- A `{"runs": [{"text": t}]}` object. -/
def runs1 (t : String) : Json := .obj [("runs", .arr [.obj [("text", .str t)]])]

/-- A minimal synthetic item carrying every nested field
`QueryResultData::parse` reads. -/
def mkItem (vid title artist durS athumb tthumb : String) : Json :=
  .obj [
    ("channelThumbnailSupportedRenderers",
      jObj1 "channelThumbnailWithLinkRenderer" (jObj1 "thumbnail" (thumbsObj athumb))),
    ("longBylineText", runs1 artist),
    ("lengthText", jObj1 "simpleText" (.str durS)),
    ("videoId", .str vid),
    ("title", runs1 title),
    ("thumbnail", thumbsObj tthumb)]

/-- Wraps an item the way the scraped array does, under the item-kind key. -/
def vidElem (item : Json) : Json := jObj1 "videoRenderer" item

/-- An array element of a sibling kind: no `videoRenderer` key. -/
def otherElem : Json := jObj1 "shelfRenderer" (.str "sibling")

/-- First complete sample item. -/
def ytItem1 : Json :=
  mkItem "abc" "Song A" "Artist A" "3:45" "https://i.example/a.png" "https://i.example/b.png"

/-- Second complete sample item. -/
def ytItem2 : Json :=
  mkItem "xyz9" "Song B" "Artist B" "1:02:03" "https://i.example/c.png" "https://i.example/d.png"

/-- The record `ytItem1` parses to. -/
def ytRec1 : QueryResultData :=
  ⟨"abc", "Song A", "https://youtube.com/watch?v=abc", "https://i.example/b.png",
   "Artist A", "https://i.example/a.png", 225⟩

/-- The record `ytItem2` parses to. -/
def ytRec2 : QueryResultData :=
  ⟨"xyz9", "Song B", "https://youtube.com/watch?v=xyz9", "https://i.example/d.png",
   "Artist B", "https://i.example/c.png", 3723⟩

/-- A heterogeneous item array: first item, one sibling element, second
item. -/
def ytSampleContents : List Json := [vidElem ytItem1, otherElem, vidElem ytItem2]

/-- An item whose `videoId` leaf is missing (every field read before it is
present and well-formed). -/
def itemNoVideoId : Json :=
  .obj [
    ("channelThumbnailSupportedRenderers",
      jObj1 "channelThumbnailWithLinkRenderer"
        (jObj1 "thumbnail" (thumbsObj "https://i.example/a.png"))),
    ("longBylineText", runs1 "Artist A"),
    ("lengthText", jObj1 "simpleText" (.str "3:45"))]

/-- An item whose duration leaf is present but malformed (`3x:45`). -/
def itemBadDur : Json :=
  .obj [
    ("channelThumbnailSupportedRenderers",
      jObj1 "channelThumbnailWithLinkRenderer"
        (jObj1 "thumbnail" (thumbsObj "https://i.example/a.png"))),
    ("longBylineText", runs1 "Artist A"),
    ("lengthText", jObj1 "simpleText" (.str "3x:45"))]

/-- An item whose artist `thumbnails` field is an empty array. -/
def itemEmptyThumbs : Json :=
  jObj1 "channelThumbnailSupportedRenderers"
    (jObj1 "channelThumbnailWithLinkRenderer"
      (jObj1 "thumbnail" (jObj1 "thumbnails" (.arr []))))

/-- An item whose thumbnail `url` leaf is present but not a string. -/
def itemUrlNotStr : Json :=
  jObj1 "channelThumbnailSupportedRenderers"
    (jObj1 "channelThumbnailWithLinkRenderer"
      (jObj1 "thumbnail" (jObj1 "thumbnails" (.arr [jObj1 "url" (.num 5)]))))

/-- An item whose artist-name `text` leaf is present but not a string
(the artist-thumbnail chain before it is well-formed). -/
def itemTextNotStr : Json :=
  .obj [
    ("channelThumbnailSupportedRenderers",
      jObj1 "channelThumbnailWithLinkRenderer"
        (jObj1 "thumbnail" (thumbsObj "https://i.example/a.png"))),
    ("longBylineText", jObj1 "runs" (.arr [jObj1 "text" (.num 3)]))]

/-- A fixture in which the end-boundary marker textually precedes the
begin-boundary marker. -/
def invText : String :=
  "],\"trackingParams\":\"\"\x7d\x7d,\x7b\"continuationItemRenderer\"itemSectionRenderer\":\x7b\"contents\""

/-!
Helper lemmas.
-/

theorem PResult.bind_eq_ok {α β : Type} {x : PResult α} {f : α → PResult β} {b : β} :
    PResult.bind x f = .ok b ↔ ∃ a, x = .ok a ∧ f a = .ok b := by
  cases x <;> simp [PResult.bind]

theorem PResult.bind_eq_err {α β : Type} {x : PResult α} {f : α → PResult β} {e : PError} :
    PResult.bind x f = .err e ↔ x = .err e ∨ ∃ a, x = .ok a ∧ f a = .err e := by
  cases x <;> simp [PResult.bind]

theorem read_eq_err_iff {j : Json} {f : String} {e : PError} :
    Json.read j f = .err e ↔ (j.get f = none ∧ e = .missingField f) := by
  unfold Json.read
  cases j.get f <;> simp [eq_comm]

theorem unwrapO_eq_err_iff {α : Type} {o : Option α} {e : PError} :
    unwrapO o = .err e ↔ False := by
  cases o <;> simp [unwrapO]

theorem index0_eq_err_iff {l : List Json} {e : PError} :
    index0 l = .err e ↔ False := by
  cases l <;> simp [index0]

theorem liftUrl_eq_err_iff {o : Option String} {e : PError} :
    liftUrl o = .err e ↔ (o = none ∧ e = .invalidUrl) := by
  cases o <;> simp [liftUrl, eq_comm]

theorem parseDuration_eq_err_iff {s : String} {e : PError} :
    parseDuration s = .err e ↔ False := by
  unfold parseDuration
  cases mapOpt fromStrRadix10 (splitCols s.data) <;> simp

theorem unwrapO_ok {α : Type} {o : Option α} {a : α} (h : unwrapO o = .ok a) :
    o = some a := by
  cases o with
  | none => simp [unwrapO] at h
  | some b => simp [unwrapO] at h; rw [h]

theorem urlParse_some {s u : String} (h : urlParse s = some u) : u = s := by
  unfold urlParse at h
  split at h
  · exact (Option.some.injEq _ _ ▸ h).symm
  · exact absurd h (by simp)

theorem durLoop_spec (vals : List Nat) : ∀ acc : Nat, vals.length ≤ 11 →
    acc + specSecs vals < U64 → durLoop vals vals.length acc = acc + specSecs vals := by
  induction vals with
  | nil => intro acc _ _; simp [durLoop, specSecs]
  | cons t rest ih =>
    intro acc hlen hlt
    have hr10 : rest.length ≤ 10 := by simp at hlen; omega
    have hP : 60 ^ rest.length < U64 := by
      calc 60 ^ rest.length ≤ 60 ^ 10 := Nat.pow_le_pow_right (by norm_num) hr10
        _ < U64 := by norm_num [U64]
    have hspec : specSecs (t :: rest) = t * 60 ^ rest.length + specSecs rest := rfl
    rw [hspec] at hlt
    have htP : t * 60 ^ rest.length < U64 := by omega
    have hsum : acc + t * 60 ^ rest.length < U64 := by omega
    show durLoop rest rest.length ((acc + (t * (60 ^ rest.length % U64)) % U64) % U64) =
      acc + specSecs (t :: rest)
    rw [Nat.mod_eq_of_lt hP, Nat.mod_eq_of_lt htP, Nat.mod_eq_of_lt hsum,
      ih (acc + t * 60 ^ rest.length) (by omega) (by omega), hspec]
    omega

/-!
Claim theorems.
-/

/-- Claim C2: for every colon-delimited numeric duration string the parsed
duration in seconds is the sum over components of `value * 60 ^ i`, `i`
counting positions from the right.  The hypotheses say every token
converts (as in the source, values below `2 ^ 64`), and bound the total
and the component count so that no `u64` operation wraps — the sums the
claim exercises (a few hours) sit far below either bound. -/
theorem c2_duration_spec (s : String) (vals : List Nat)
    (h1 : mapOpt fromStrRadix10 (splitCols s.data) = some vals)
    (h2 : specSecs vals < U64) (h3 : vals.length ≤ 11) :
    parseDuration s = .ok (specSecs vals) := by
  unfold parseDuration
  rw [h1]
  exact congrArg PResult.ok ((durLoop_spec vals 0 h3 (by simpa using h2)).trans (Nat.zero_add _))

/-- Witness for C2: the three concrete examples of the spec. -/
theorem c2_duration_spec_witness :
    parseDuration "3:45" = .ok 225 ∧ parseDuration "1:02:03" = .ok 3723 ∧
      parseDuration "0:09" = .ok 9 := by
  refine ⟨?_, ?_, ?_⟩
  · rw [c2_duration_spec "3:45" [3, 45] (by decide) (by decide) (by decide)]; decide
  · rw [c2_duration_spec "1:02:03" [1, 2, 3] (by decide) (by decide) (by decide)]; decide
  · rw [c2_duration_spec "0:09" [0, 9] (by decide) (by decide) (by decide)]; decide

/-- Claim C7: when both boundary patterns capture but the begin capture's
start offset is at or after the end capture's end offset, `get_json`
returns the invalid-range error; quantifying over the JSON parser shows
the slice is never parsed. -/
theorem c7_inverted_range (jsonParse : String → PResult Json) (text : String)
    (br er : Nat × Nat)
    (h1 : get_json_begin text = some br) (h2 : get_json_end text = some er)
    (h3 : er.2 ≤ br.1) :
    get_json jsonParse text = .err .invalidResponseText := by
  unfold get_json
  rw [h1, h2]
  exact if_pos h3

/-- Witness for C7: a fixture whose end marker precedes its begin marker. -/
theorem c7_inverted_range_witness :
    get_json (fun _ => PResult.panic) invText = .err .invalidResponseText :=
  c7_inverted_range _ invText (72, 83) (21, 22) (by decide) (by decide) (by decide)

/-- Claim C10: panics reachable from the public parse interface: a missing
or non-array `contents` field panics `YouTube::parse`, and a confirmed
item with an empty `thumbnails` array, a non-string `url` leaf or a
non-string `text` leaf panics `QueryResultData::parse`. -/
theorem c10_panics :
    YouTube.parse (Json.obj []) = .panic ∧
    YouTube.parse (jObj1 "contents" (.str "x")) = .panic ∧
    QueryResultData.parse itemEmptyThumbs = .panic ∧
    QueryResultData.parse itemUrlNotStr = .panic ∧
    QueryResultData.parse itemTextNotStr = .panic := by
  decide

/-- Counterexample to C5: the resolution tool exits with status 1 yet
`stream_fn` proceeds and succeeds — a non-zero exit is not surfaced as a
failure. -/
theorem c5_counterexample :
    stream_fn (some ⟨1, "https://cdn.example/a.m4a"⟩) "song" =
      .ok ⟨"https://cdn.example/a.m4a", "libmp3lame", "file:song", true⟩ ∧
    (stream_fn (some ⟨1, "https://cdn.example/a.m4a"⟩) "song").isErr = false := by
  decide

/-- Claim C5 amended: an I/O error launching the resolution tool fails the
call, but the tool's exit status is never consulted — the result depends
only on the captured output. -/
theorem c5_amended (file_name : String) :
    stream_fn none file_name = .err .ioError ∧
      ∀ (status : Int) (out : String),
        stream_fn (some ⟨status, out⟩) file_name = stream_fn (some ⟨0, out⟩) file_name :=
  ⟨rfl, fun _ _ => rfl⟩

/-- Counterexample to C6: an item whose duration leaf is the malformed
string `3x:45` makes the per-item parse panic; no error is returned. -/
theorem c6_counterexample :
    QueryResultData.parse itemBadDur = .panic ∧
      (QueryResultData.parse itemBadDur).isErr = false := by
  decide

/-- Claim C6 amended: a malformed duration token makes the duration
conversion (and with it the per-item parse) panic via the unwrap on
`from_str_radix`, instead of returning an invalid-duration error. -/
theorem c6_amended :
    (∀ s : String, mapOpt fromStrRadix10 (splitCols s.data) = none →
      parseDuration s = .panic) ∧
    QueryResultData.parse itemBadDur = .panic := by
  constructor
  · intro s h; unfold parseDuration; rw [h]
  · decide

/-- Witness for the amended C6 at the malformed string `3x:45`. -/
theorem c6_amended_witness :
    mapOpt fromStrRadix10 (splitCols ("3x:45").data) = none ∧
      parseDuration "3x:45" = .panic :=
  ⟨by decide, c6_amended.1 "3x:45" (by decide)⟩

/-- Counterexample to C9: on the fixed fixture the extractor's own
begin-boundary pattern captures at the offset pair (32, 43) — its capture
group carries the trailing quote — not at (32, 42) as claimed. -/
theorem c9_counterexample :
    get_json_begin fixtureText ≠ some (32, 42) ∧
      get_json_begin fixtureText = some (32, 43) := by
  decide

/-- Claim C9 amended: on the fixture the regression test's begin pattern
(`itemSectionRenderer[\S|\s]*({\s*"contents)`) captures `{"contents` at
(32, 42); the extractor's begin pattern (`itemSectionRenderer":({"contents")`)
captures `{"contents"` at (32, 43). -/
theorem c9_amended :
    testBeginCapture fixtureText = some (32, 42) ∧
      (fixtureText.data.drop 32).take 10 = ("\x7b\"contents").data ∧
      get_json_begin fixtureText = some (32, 43) ∧
      (fixtureText.data.drop 32).take 11 = ("\x7b\"contents\"").data := by
  decide

/-- Claim C1: when every confirmed item of the array parses, `parseItems`
succeeds and returns exactly the records of the elements carrying the
item-kind field, in array order; elements without the field are skipped
silently. -/
theorem c1_heterogeneous (contents : List Json)
    (h : contents.all (fun t =>
      optAll (fun raw => (QueryResultData.parse raw).isOk) (t.get "videoRenderer")) = true) :
    parseItems contents =
      .ok (contents.filterMap (fun t =>
        (t.get "videoRenderer").bind (fun raw => (QueryResultData.parse raw).toOption))) := by
  induction contents with
  | nil => rfl
  | cons t rest ih =>
    rw [List.all_cons, Bool.and_eq_true] at h
    obtain ⟨ht, hrest⟩ := h
    rw [List.filterMap_cons]
    cases hg : t.get "videoRenderer" with
    | none => simpa [parseItems, hg] using ih hrest
    | some raw =>
      rw [hg] at ht
      cases hp : QueryResultData.parse raw with
      | ok r => simp [parseItems, hg, hp, ih hrest, PResult.toOption]
      | err e => simp [optAll, hp, PResult.isOk] at ht
      | panic => simp [optAll, hp, PResult.isOk] at ht

/-- Witness for C1: one sibling element between two items yields exactly
the two records, in original relative order. -/
theorem c1_heterogeneous_witness :
    parseItems ytSampleContents = .ok [ytRec1, ytRec2] := by
  rw [c1_heterogeneous ytSampleContents (by decide)]; decide

/-- An error of the per-item parse aborts the whole loop: whatever was
already parsed is discarded and the error alone is returned. -/
theorem parseItems_append_err (pre post : List Json) (item raw : Json)
    (rs : List QueryResultData) (e : PError)
    (h1 : parseItems pre = .ok rs)
    (h2 : item.get "videoRenderer" = some raw)
    (h3 : QueryResultData.parse raw = .err e) :
    parseItems (pre ++ item :: post) = .err e := by
  induction pre generalizing rs with
  | nil => simp [parseItems, h2, h3]
  | cons t ts ih =>
    rw [List.cons_append]
    cases hg : t.get "videoRenderer" with
    | none =>
      simp only [parseItems, hg] at h1
      simpa [parseItems, hg] using ih rs h1
    | some raw2 =>
      cases hp : QueryResultData.parse raw2 with
      | ok r =>
        cases hq : parseItems ts with
        | ok items => simp [parseItems, hg, hp, ih items hq]
        | err e2 => simp [parseItems, hg, hp, hq] at h1
        | panic => simp [parseItems, hg, hp, hq] at h1
      | err e2 => simp [parseItems, hg, hp] at h1
      | panic => simp [parseItems, hg, hp] at h1

/-- The only missing-field errors `QueryResultData::parse` can produce name
one of the fixed nested leaf fields it reads. -/
theorem parse_err_missingField_mem (source : Json) (n : String)
    (h : QueryResultData.parse source = .err (.missingField n)) : n ∈ leafFields := by
  unfold QueryResultData.parse at h
  simp only [PResult.bind_eq_err, read_eq_err_iff, unwrapO_eq_err_iff, index0_eq_err_iff,
    liftUrl_eq_err_iff, parseDuration_eq_err_iff, PError.missingField.injEq,
    and_false, false_and, or_false, false_or, exists_false, and_true, true_and,
    reduceCtorEq] at h
  casesm* _ ∨ _, _ ∧ _, Exists _
  all_goals subst_vars
  all_goals decide

/-- Claim C3: a confirmed item whose per-item parse fails with a
missing-field error makes the entire call fail with that same error — the
name is one of the fixed nested leaf fields — and nothing of the
already-parsed prefix is returned. -/
theorem c3_missing_leaf (pre post : List Json) (item raw : Json)
    (rs : List QueryResultData) (name : String)
    (h1 : parseItems pre = .ok rs)
    (h2 : item.get "videoRenderer" = some raw)
    (h3 : QueryResultData.parse raw = .err (.missingField name)) :
    name ∈ leafFields ∧
      parseItems (pre ++ item :: post) = .err (.missingField name) :=
  ⟨parse_err_missingField_mem raw name h3,
   parseItems_append_err pre post item raw rs _ h1 h2 h3⟩

/-- Witness for C3: an item lacking `videoId` between two good items fails
the whole parse with the missing-videoId error. -/
theorem c3_missing_leaf_witness :
    "videoId" ∈ leafFields ∧
      parseItems [vidElem ytItem1, vidElem itemNoVideoId, vidElem ytItem2] =
        .err (.missingField "videoId") :=
  c3_missing_leaf [vidElem ytItem1] [vidElem ytItem2] (vidElem itemNoVideoId)
    itemNoVideoId [ytRec1] "videoId" (by decide) (by rfl) (by decide)

/-- Claim C8: whatever payload an item carries, a successfully parsed
record's URL is the fixed watch-page base URL with the item's id appended
as the `v` query parameter — it is never read from the payload. -/
theorem c8_canonical_url (source : Json) (r : QueryResultData)
    (h : QueryResultData.parse source = .ok r) :
    r.track_url = SOURCE_URL ++ "?v=" ++ r.track_id := by
  unfold QueryResultData.parse at h
  simp only [PResult.bind_eq_ok, PResult.ok.injEq] at h
  obtain ⟨a1, -, a2, -, a3, -, a4, -, arr1, -, e1, -, u1, -, s1, -, ath, -,
    b1, -, b2, -, arr2, -, e2, -, t2, -, an, -, c1, -, c2, -, ds, -, du, -,
    idv, -, tid, -, turl, hturl, d1, -, d2, -, arr3, -, e3, -, t3, -, tn, -,
    f1, -, f2, -, arr4, -, e4, -, u4, -, s4, -, tth, -, hr⟩ := h
  subst hr
  exact urlParse_some (unwrapO_ok hturl)

/-- Witness for C8 at the first sample item. -/
theorem c8_canonical_url_witness :
    ytRec1.track_url = SOURCE_URL ++ "?v=" ++ ytRec1.track_id :=
  c8_canonical_url ytItem1 ytRec1 (by decide)

/-- A list is a Boolean prefix of itself followed by anything. -/
theorem isPrefixOf_append_self {α : Type} [BEq α] [LawfulBEq α] (a b : List α) :
    a.isPrefixOf (a ++ b) = true := by
  induction a with
  | nil => simp [List.isPrefixOf]
  | cons c t ih => simp [List.isPrefixOf, ih]

/-- Dropping while a predicate holds skips a leading block on which it
holds everywhere. -/
theorem dropWhile_append_of_all {p : Char → Bool} (w Z : List Char)
    (hw : ∀ c ∈ w, p c = true) : (w ++ Z).dropWhile p = Z.dropWhile p := by
  induction w with
  | nil => rfl
  | cons c cs ih =>
    rw [List.cons_append, List.dropWhile_cons, if_pos (hw c (by simp))]
    exact ih (fun x hx => hw x (by simp [hx]))

/-- Stripping trailing whitespace from `Z ++ mid ++ w` (as done on the
reversed list) removes exactly the all-whitespace `w` when `mid` is
nonempty and whitespace-free. -/
theorem strip_trailing (Z mid w : List Char)
    (hmid1 : mid ≠ []) (hmid2 : ∀ c ∈ mid, wsChar c = false)
    (hw : ∀ c ∈ w, wsChar c = true) :
    (Z ++ mid ++ w).reverse.dropWhile wsChar = mid.reverse ++ Z.reverse := by
  rw [List.reverse_append, List.reverse_append]
  rw [dropWhile_append_of_all _ _ (fun c hc => hw c (List.mem_reverse.mp hc))]
  cases hrev : mid.reverse with
  | nil => exact absurd (by simpa using congrArg List.reverse hrev) hmid1
  | cons c t =>
    have hc : c ∈ mid := List.mem_reverse.mp (hrev ▸ List.mem_cons_self c t)
    rw [List.cons_append, List.dropWhile_cons, if_neg (by simp [hmid2 c hc])]

/-- The resolver regex matches at the start of `https://` followed by a
newline-free token and trailing whitespace. -/
theorem httpsMatchAt_true (mid w : List Char)
    (hmid1 : mid ≠ []) (hmid2 : ∀ c ∈ mid, wsChar c = false)
    (hw : ∀ c ∈ w, wsChar c = true) :
    httpsMatchAt (httpsLit ++ mid ++ w) = true := by
  unfold httpsMatchAt
  rw [Bool.and_eq_true]
  constructor
  · rw [List.append_assoc]
    exact isPrefixOf_append_self httpsLit (mid ++ w)
  · have hdrop : (httpsLit ++ mid ++ w).drop 8 = mid ++ w := by
      rw [List.append_assoc]
      exact List.drop_left httpsLit (mid ++ w)
    rw [hdrop]
    have hstrip := strip_trailing [] mid w hmid1 hmid2 hw
    rw [List.nil_append] at hstrip
    rw [hstrip]
    simp only [List.reverse_nil, List.append_nil, List.all_eq_true]
    intro c hcm
    have h1 : wsChar c = false := hmid2 c (List.mem_reverse.mp hcm)
    have h2 : c ≠ '\n' := by intro he; rw [he] at h1; exact absurd h1 (by decide)
    exact bne_iff_ne.mpr h2

/-- The resolver regex cannot match at any position at or before a newline
that separates it from the final `https://` token. -/
theorem httpsMatchAt_false_before (p0 mid w : List Char) (q : Nat)
    (hmid1 : mid ≠ []) (hmid2 : ∀ c ∈ mid, wsChar c = false)
    (hw : ∀ c ∈ w, wsChar c = true) (hq : q ≤ p0.length) :
    httpsMatchAt ((p0 ++ '\n' :: (httpsLit ++ mid ++ w)).drop q) = false := by
  by_contra hcon
  rw [Bool.not_eq_false] at hcon
  unfold httpsMatchAt at hcon
  rw [Bool.and_eq_true] at hcon
  obtain ⟨hp, hall⟩ := hcon
  by_cases hcase : q + 8 ≤ p0.length
  · have hdrop : ((p0 ++ '\n' :: (httpsLit ++ mid ++ w)).drop q).drop 8
        = p0.drop (q + 8) ++ '\n' :: (httpsLit ++ mid ++ w) := by
      rw [List.drop_drop, List.drop_append_eq_append_drop,
        Nat.sub_eq_zero_of_le (by omega), List.drop_zero]
    rw [hdrop] at hall
    have hshape : p0.drop (q + 8) ++ '\n' :: (httpsLit ++ mid ++ w)
        = (p0.drop (q + 8) ++ '\n' :: httpsLit) ++ mid ++ w := by
      simp [List.append_assoc]
    rw [hshape, strip_trailing _ mid w hmid1 hmid2 hw, List.all_eq_true] at hall
    have hmem : '\n' ∈ mid.reverse ++ (p0.drop (q + 8) ++ '\n' :: httpsLit).reverse := by
      apply List.mem_append_right
      rw [List.mem_reverse]
      exact List.mem_append_right _ (List.mem_cons_self _ _)
    have hfalse := hall _ hmem
    simp at hfalse
  · push_neg at hcase
    have hj : p0.length - q < 8 := by omega
    obtain ⟨t, ht⟩ := List.isPrefixOf_iff_prefix.mp hp
    have hchar : ((p0 ++ '\n' :: (httpsLit ++ mid ++ w)).drop q)[p0.length - q]? = some '\n' := by
      rw [List.getElem?_drop]
      have harith : q + (p0.length - q) = p0.length := by omega
      rw [harith, List.getElem?_append_right (le_refl p0.length)]
      simp
    rw [← ht, List.getElem?_append_left (by simpa [httpsLit] using hj)] at hchar
    have hmem2 : '\n' ∈ httpsLit := List.getElem?_mem hchar
    exact absurd hmem2 (by decide)

/-- `findMatch` returns the leftmost matching position. -/
theorem findMatch_eq_some (cs : List Char) (p0 : Nat)
    (h1 : httpsMatchAt (cs.drop p0) = true)
    (h2 : ∀ q, q < p0 → httpsMatchAt (cs.drop q) = false) :
    findMatch cs = some p0 := by
  induction cs generalizing p0 with
  | nil => rw [List.drop_nil] at h1; exact absurd h1 (by decide)
  | cons c rest ih =>
    cases p0 with
    | zero =>
      rw [List.drop_zero] at h1
      simp [findMatch, h1]
    | succ p =>
      have h0 : httpsMatchAt (c :: rest) = false := by simpa using h2 0 (Nat.succ_pos p)
      have hr : findMatch rest = some p :=
        ih p (by simpa using h1) (fun q hq => by simpa using h2 (q + 1) (by omega))
      simp [findMatch, h0, hr]

/-- `findMatch` fails when no position matches. -/
theorem findMatch_eq_none (cs : List Char)
    (h : ∀ q, httpsMatchAt (cs.drop q) = false) : findMatch cs = none := by
  induction cs with
  | nil => rfl
  | cons c rest ih =>
    have h0 : httpsMatchAt (c :: rest) = false := by simpa using h 0
    simp [findMatch, h0, ih (fun q => by simpa using h (q + 1))]

/-- Trimming the matched tail `https:// ++ mid ++ w` leaves the URL token. -/
theorem trimChars_https (mid w : List Char) (hmid1 : mid ≠ [])
    (hmid2 : ∀ c ∈ mid, wsChar c = false) (hw : ∀ c ∈ w, wsChar c = true) :
    trimChars (httpsLit ++ mid ++ w) = httpsLit ++ mid := by
  unfold trimChars
  have hfront : (httpsLit ++ mid ++ w).dropWhile wsChar = httpsLit ++ mid ++ w := by
    rw [List.append_assoc]
    rw [show httpsLit ++ (mid ++ w) = 'h' :: (['t', 't', 'p', 's', ':', '/', '/'] ++ (mid ++ w)) from rfl]
    rw [List.dropWhile_cons, if_neg (by decide)]
  rw [hfront, strip_trailing httpsLit mid w hmid1 hmid2 hw,
    List.reverse_append, List.reverse_reverse, List.reverse_reverse]

/-- Claim C4: when the resolution tool's output ends with an
`https://`-token standing on its own line (surrounded only by whitespace),
`stream_fn` resolves exactly that token, trimmed, and hands it to the
transcode invocation; when the pattern matches nowhere — the empty output
included — the call fails with the no-download-url stream error and no
transcode invocation is assembled. -/
theorem c4_resolver :
    (∀ (pre mid w : List Char) (status : Int) (file_name : String),
      (pre = [] ∨ ∃ p0, pre = p0 ++ ['\n']) → mid ≠ [] →
      (∀ c ∈ mid, wsChar c = false) → (∀ c ∈ w, wsChar c = true) →
      stream_fn (some ⟨status, String.mk (pre ++ httpsLit ++ mid ++ w)⟩) file_name =
        .ok ⟨String.mk (httpsLit ++ mid), "libmp3lame", "file:" ++ file_name, true⟩) ∧
    (∀ (output : String) (status : Int) (file_name : String),
      (∀ q, httpsMatchAt (output.data.drop q) = false) →
      stream_fn (some ⟨status, output⟩) file_name =
        .err (.streamError "No download url found")) := by
  constructor
  · intro pre mid w status file_name hpre hmid1 hmid2 hw
    have hdrop : (pre ++ httpsLit ++ mid ++ w).drop pre.length = httpsLit ++ mid ++ w := by
      rw [List.append_assoc, List.append_assoc, List.drop_left, ← List.append_assoc]
    have hfind : findMatch (pre ++ httpsLit ++ mid ++ w) = some pre.length := by
      apply findMatch_eq_some
      · rw [hdrop]
        exact httpsMatchAt_true mid w hmid1 hmid2 hw
      · intro q hq
        rcases hpre with h0 | ⟨p0, hp0⟩
        · subst h0; simp at hq
        · subst hp0
          have hshape : p0 ++ ['\n'] ++ httpsLit ++ mid ++ w
              = p0 ++ '\n' :: (httpsLit ++ mid ++ w) := by
            simp [List.append_assoc]
          rw [hshape]
          have hq2 : q ≤ p0.length := by simp at hq; omega
          exact httpsMatchAt_false_before p0 mid w q hmid1 hmid2 hw hq2
    have hres : resolveUrl (String.mk (pre ++ httpsLit ++ mid ++ w)) =
        .ok (String.mk (httpsLit ++ mid)) := by
      unfold resolveUrl
      simp only [hfind]
      rw [hdrop, trimChars_https mid w hmid1 hmid2 hw]
    show (match resolveUrl (String.mk (pre ++ httpsLit ++ mid ++ w)) with
      | PResult.ok url => PResult.ok (⟨url, "libmp3lame", "file:" ++ file_name, true⟩ : FfmpegArgs)
      | PResult.err e => PResult.err e
      | PResult.panic => PResult.panic) =
      PResult.ok ⟨String.mk (httpsLit ++ mid), "libmp3lame", "file:" ++ file_name, true⟩
    rw [hres]
  · intro output status file_name h
    have hfind := findMatch_eq_none output.data h
    simp [stream_fn, resolveUrl, hfind]

/-- Witness for C4: a concrete tool transcript with noise before the URL
line, and the empty-output failure. -/
theorem c4_resolver_witness :
    stream_fn (some ⟨0, String.mk (("tool noise\n").data ++ httpsLit ++
        ("cdn.example/x").data ++ (" \n").data)⟩) "song" =
      .ok ⟨String.mk (httpsLit ++ ("cdn.example/x").data), "libmp3lame", "file:song", true⟩ ∧
    stream_fn (some ⟨0, ""⟩) "f" = .err (.streamError "No download url found") := by
  constructor
  · exact c4_resolver.1 ("tool noise\n").data ("cdn.example/x").data (" \n").data 0 "song"
      (Or.inr ⟨("tool noise").data, by decide⟩) (by decide) (by decide) (by decide)
  · refine c4_resolver.2 "" 0 "f" (fun q => ?_)
    rw [show ("" : String).data = [] from rfl, List.drop_nil]
    decide

/-- Witness for the amended C5: launch failure errs; exit status 7 and 0
give identical results. -/
theorem c5_amended_witness :
    stream_fn none "song" = .err .ioError ∧
      stream_fn (some ⟨7, "https://a.b"⟩) "song" =
        stream_fn (some ⟨0, "https://a.b"⟩) "song" :=
  ⟨(c5_amended "song").1, (c5_amended "song").2 7 "https://a.b"⟩
